import Mathlib

/-!
Shallow embedding of the borrowing workflow of the Nalanda library-management
service: the data model (`Book`, `BorrowRecord`), the workflow operations
`borrowBook`, `returnBook` and `listBorrows` from
`src/apps/borrows/usecases/borrow.usecase.mjs`, and the reporting aggregations
`mostBorrowedBooks` and `bookAvailabilitySummary` from
`src/apps/borrows/repositories/borrow.repository.mjs`.

Persistent collections are modelled as lists of documents keyed by a numeric
id; `findById` is first-match lookup and `save`/`findByIdAndUpdate` replace the
first document carrying the saved document's id (ids are unique in the store).
Dates and ids are natural numbers; `copies` is an integer, as the schema only
constrains it at validation time and the use case mutates it arithmetically.
-/

namespace Nalanda

/-- Status values of the borrow schema: `["borrowed", "returned", "overdue"]`. -/
inductive BorrowStatus where
  | borrowed
  | returned
  | overdue
deriving DecidableEq

/-- A document of the Book collection (`book.model.mjs`). -/
structure Book where
  id : Nat
  title : String
  author : String
  ISBN : String
  copies : Int
deriving DecidableEq

/-- A document of the Borrow collection (`borrow.model.mjs`); `createdAt` is
the timestamp added by `timestamps: true`. -/
structure BorrowRecord where
  id : Nat
  userId : Nat
  bookId : Nat
  borrowDate : Nat
  dueDate : Nat
  returnDate : Option Nat
  status : BorrowStatus
  createdAt : Nat
deriving DecidableEq

/-- The persistent store: the Book and Borrow collections, plus the id the
store will assign to the next created borrow document. -/
structure LibState where
  books : List Book
  borrows : List BorrowRecord
  nextBorrowId : Nat
deriving DecidableEq

/-- Model of `Book.findById`: first document whose id matches. -/
def findBook (books : List Book) (bookId : Nat) : Option Book :=
  books.find? (fun b => b.id = bookId)

/-- Model of `book.save()`: write the document back over the stored document with the
same id (the first such document; ids are unique in the store). -/
def saveBook : List Book → Book → List Book
  | [], _ => []
  | b :: bs, nb => if b.id = nb.id then nb :: bs else b :: saveBook bs nb

/-- Model of `Borrow.findById`: first borrow document whose id matches. -/
def findBorrow (rs : List BorrowRecord) (borrowId : Nat) : Option BorrowRecord :=
  rs.find? (fun r => r.id = borrowId)

/-- Model of `Borrow.findByIdAndUpdate(id, { status, returnDate })`: update the stored
document with the given id in place. -/
def updateBorrow : List BorrowRecord → Nat → BorrowStatus → Option Nat →
    List BorrowRecord
  | [], _, _, _ => []
  | r :: rest, borrowId, st, rd =>
    if r.id = borrowId then { r with status := st, returnDate := rd } :: rest
    else r :: updateBorrow rest borrowId st rd

/-- Model of `BorrowUseCase.borrowBook({ userId, bookId, dueDate })` at time `now`:
look the book up, reject when absent or when `copies <= 0`, otherwise
decrement `copies`, save the book, and create the borrow record (status
defaults to `borrowed`, `borrowDate` defaults to now). -/
def borrowBook (s : LibState) (userId bookId dueDate now : Nat) :
    Except String (LibState × BorrowRecord) :=
  match findBook s.books bookId with
  | none => .error "Book not found"
  | some book =>
    if book.copies ≤ 0 then .error "Book not available"
    else
      let books1 := saveBook s.books { book with copies := book.copies - 1 }
      let newBorrow : BorrowRecord :=
        { id := s.nextBorrowId, userId := userId, bookId := bookId,
          borrowDate := now, dueDate := dueDate, returnDate := none,
          status := .borrowed, createdAt := now }
      .ok ({ books := books1, borrows := s.borrows ++ [newBorrow],
             nextBorrowId := s.nextBorrowId + 1 }, newBorrow)

/-- Model of `BorrowUseCase.returnBook(borrowId, requestingUserId)` at time `now`:
look the record up (the repository populates `bookId`, so when the referenced
book is missing the populated path resolves to null), reject when the record
is absent or its status is not `borrowed`, otherwise mark it returned with
`returnDate = now` and increment the referenced book's `copies`. When the
referenced book no longer exists, `borrow.bookId._id` dereferences the
null-populated path and the call rejects with a TypeError; the record update
has already been committed at that point — that store is
`returnBookCrashState`. `requestingUserId` is accepted but not consulted, as
in the source. -/
def returnBook (s : LibState) (borrowId requestingUserId now : Nat) :
    Except String (LibState × BorrowRecord) :=
  match findBorrow s.borrows borrowId with
  | none => .error "Borrow record not found"
  | some borrow =>
    if borrow.status = BorrowStatus.borrowed then
      let updated :=
        { borrow with status := BorrowStatus.returned, returnDate := some now }
      let borrows1 := updateBorrow s.borrows borrowId BorrowStatus.returned (some now)
      match findBook s.books borrow.bookId with
      | none => .error "TypeError: Cannot read properties of null (reading _id)"
      | some book =>
          let books1 := saveBook s.books { book with copies := book.copies + 1 }
          .ok ({ s with borrows := borrows1, books := books1 }, updated)
    else .error "This book is not currently borrowed"

/-- The store `returnBook` leaves behind when it rejects with the
populate-null TypeError: the record update (line 65 of the use case) has been
committed by `findByIdAndUpdate`, and the book increment never runs. -/
def returnBookCrashState (s : LibState) (borrowId now : Nat) : LibState :=
  { s with borrows := updateBorrow s.borrows borrowId BorrowStatus.returned (some now) }

/-- Number of borrow documents for `bid` whose status is `borrowed` (the
`$match` stage of the availability pipeline). -/
def activeCount (rs : List BorrowRecord) (bid : Nat) : Nat :=
  rs.countP (fun r => decide (r.bookId = bid ∧ r.status = BorrowStatus.borrowed))

/-- Current `copies` of the book `bid`, or 0 when the book does not exist. -/
def copiesOf (s : LibState) (bid : Nat) : Int :=
  ((findBook s.books bid).map (fun b => b.copies)).getD 0

/-- One row of the `perBook` array of `bookAvailabilitySummary`. -/
structure AvailabilityEntry where
  bookId : Nat
  title : String
  author : String
  ISBN : String
  totalCopies : Int
  borrowedCopies : Nat
  availableCopies : Int
deriving DecidableEq

/-- The `totals` accumulator of `bookAvailabilitySummary`. -/
structure AvailabilityTotals where
  totalBooks : Int
  borrowedBooks : Nat
  availableBooks : Int
deriving DecidableEq

/-- The row the aggregation pipeline produces for one book: `borrowedCount`
from the `$lookup` sub-pipeline and `availableCopies = copies - borrowedCount`. -/
def availabilityEntry (rs : List BorrowRecord) (b : Book) : AvailabilityEntry :=
  { bookId := b.id, title := b.title, author := b.author, ISBN := b.ISBN,
    totalCopies := b.copies, borrowedCopies := activeCount rs b.id,
    availableCopies := b.copies - (activeCount rs b.id : Int) }

/-- The `reduce` step of `bookAvailabilitySummary`, folding the per-book rows
into totals and clamping only `availableBooks` with `Math.max(0, ...)`. -/
def availabilityStep (acc : AvailabilityTotals) (e : AvailabilityEntry) :
    AvailabilityTotals :=
  { totalBooks := acc.totalBooks + e.totalCopies,
    borrowedBooks := acc.borrowedBooks + e.borrowedCopies,
    availableBooks := acc.availableBooks + max 0 e.availableCopies }

/-- Model of `BorrowRepository.bookAvailabilitySummary()`: per-book rows over the whole
Book collection, and their fold into totals starting from all-zero totals. -/
def bookAvailabilitySummary (s : LibState) :
    List AvailabilityEntry × AvailabilityTotals :=
  let perBook := s.books.map (availabilityEntry s.borrows)
  (perBook, perBook.foldl availabilityStep ⟨0, 0, 0⟩)

/-- One step of the `$group` stage: credit one borrow of book `b` to the
per-book tally, keeping groups in order of first appearance. -/
def bump : List (Nat × Nat) → Nat → List (Nat × Nat)
  | [], b => [(b, 1)]
  | (k, c) :: rest, b =>
    if k = b then (k, c + 1) :: rest else (k, c) :: bump rest b

/-- The `$group: { _id: "$bookId", borrowCount: { $sum: 1 } }` stage over the
whole Borrow collection, groups ordered by first appearance in the ledger. -/
def groupCounts (rs : List BorrowRecord) : List (Nat × Nat) :=
  rs.foldl (fun acc r => bump acc r.bookId) []

/-- The tally an association list of per-book counts records for key `k`
(0 when `k` has no group). -/
def lookupCount (l : List (Nat × Nat)) (k : Nat) : Nat :=
  ((l.find? (fun p => p.1 = k)).map (fun p => p.2)).getD 0

/-- Insertion step of a store sort on one numeric key, descending: place `x`
in front of the first element it weakly exceeds, keeping earlier elements
first among equal keys. -/
def insertDescBy {α : Type} (key : α → Nat) (x : α) : List α → List α
  | [] => [x]
  | y :: ys => if key y ≤ key x then x :: y :: ys else y :: insertDescBy key x ys

/-- A store sort on one numeric key, descending and stable. -/
def sortDescBy {α : Type} (key : α → Nat) : List α → List α
  | [] => []
  | x :: xs => insertDescBy key x (sortDescBy key xs)

/-- The `$sort: { borrowCount: -1 }` stage: sort the tallies by count,
descending; the sort key carries no tie-break field. -/
def sortByCountDesc (l : List (Nat × Nat)) : List (Nat × Nat) :=
  sortDescBy (fun kc => kc.2) l

/-- One row of the `mostBorrowedBooks` result after `$lookup`/`$project`. -/
structure MostBorrowedEntry where
  bookId : Nat
  title : String
  author : String
  ISBN : String
  borrowCount : Nat
deriving DecidableEq

/-- Model of `BorrowRepository.mostBorrowedBooks({ top })`: group, sort by count
descending, `$limit: top`, then `$lookup` + `$unwind` join to the Book
collection (rows whose book no longer exists are dropped by `$unwind`). -/
def mostBorrowedBooks (s : LibState) (top : Nat) : List MostBorrowedEntry :=
  ((sortByCountDesc (groupCounts s.borrows)).take top).filterMap
    (fun kc => (findBook s.books kc.1).map
      (fun b => { bookId := b.id, title := b.title, author := b.author,
                  ISBN := b.ISBN, borrowCount := kc.2 }))

/-- Roles supplied by the access-control layer. -/
inductive Role where
  | Admin
  | Member
deriving DecidableEq

/-- The authenticated identity `{ id, role }` passed to `listBorrows`. -/
structure CurrentUser where
  id : Nat
  role : Role
deriving DecidableEq

/-- The query parameters `listBorrows` consults; `none` models an absent (or
falsy) parameter. -/
structure BorrowQuery where
  page : Option Nat
  limit : Option Nat
  userId : Option Nat
  bookId : Option Nat
  status : Option BorrowStatus
deriving DecidableEq

/-- Model of `getPagination`: `parseInt(query.page, 10) || 1` and
`parseInt(query.limit, 10) || 10` (a parse result of 0 is falsy and falls
back to the default), then `skip = (page - 1) * limit`. -/
def getPagination (q : BorrowQuery) : Nat × Nat × Nat :=
  let page := match q.page with
    | some p => if p = 0 then 1 else p
    | none => 1
  let limit := match q.limit with
    | some l => if l = 0 then 10 else l
    | none => 10
  (page, limit, (page - 1) * limit)

/-- The filter object built by `BorrowUseCase.listBorrows`: an explicit
`query.userId` wins; otherwise a `Member` caller is restricted to their own
id; `bookId` and `status` pass through. (`buildSearchQuery(query, [])` always
contributes the empty filter, as its field list is empty.) -/
def borrowFilters (q : BorrowQuery) (currentUser : CurrentUser) :
    Option Nat × Option Nat × Option BorrowStatus :=
  let userFilter := match q.userId with
    | some u => some u
    | none => if currentUser.role = Role.Member then some currentUser.id else none
  (userFilter, q.bookId, q.status)

/-- Whether a borrow document matches the equality filters of the final query. -/
def matchesFilters (uf bf : Option Nat) (sf : Option BorrowStatus)
    (r : BorrowRecord) : Bool :=
  (match uf with | some u => r.userId == u | none => true) &&
  (match bf with | some b => r.bookId == b | none => true) &&
  (match sf with | some st => r.status == st | none => true)

/-- The `sort({ createdAt: -1 })` stage of `BorrowRepository.listBorrows`. -/
def sortByCreatedDesc (rs : List BorrowRecord) : List BorrowRecord :=
  sortDescBy (fun r => r.createdAt) rs

/-- Model of `BorrowUseCase.listBorrows(query, currentUser)`: build the filters, then
`find(query).sort({ createdAt: -1 }).skip(skip).limit(limit)` together with
`countDocuments(query)`. Returns the page and the total match count. -/
def listBorrows (s : LibState) (q : BorrowQuery) (currentUser : CurrentUser) :
    List BorrowRecord × Nat :=
  (((sortByCreatedDesc (s.borrows.filter
        (matchesFilters (borrowFilters q currentUser).1
          (borrowFilters q currentUser).2.1
          (borrowFilters q currentUser).2.2))).drop
      (getPagination q).2.2).take (getPagination q).2.1,
   (s.borrows.filter
      (matchesFilters (borrowFilters q currentUser).1
        (borrowFilters q currentUser).2.1
        (borrowFilters q currentUser).2.2)).length)

/-- The stock of book `bid`: copies currently on the shelf plus copies
currently out on an active borrow. `borrowBook` moves one copy from shelf to
ledger and `returnBook` moves it back, so this quantity is what the workflow
conserves. -/
def stock (s : LibState) (bid : Nat) : Int :=
  (activeCount s.borrows bid : Int) + copiesOf s bid

/-- States reachable from `s0` by `borrowBook` / `returnBook` calls. A call
that fails on a precondition raises before any write, so it does not change
state; the one failing call that does write is `returnBook` hitting the
populate-null TypeError, which leaves `returnBookCrashState` behind. -/
inductive Reachable : LibState → LibState → Prop
  | refl (s : LibState) : Reachable s s
  | borrow {s0 s s1 : LibState} {r : BorrowRecord} (u b d n : Nat) :
      Reachable s0 s → borrowBook s u b d n = .ok (s1, r) → Reachable s0 s1
  | giveBack {s0 s s1 : LibState} {r : BorrowRecord} (i u n : Nat) :
      Reachable s0 s → returnBook s i u n = .ok (s1, r) → Reachable s0 s1
  | giveBackCrash {s0 s : LibState} (i u n : Nat) :
      Reachable s0 s →
      returnBook s i u n =
        .error "TypeError: Cannot read properties of null (reading _id)" →
      Reachable s0 (returnBookCrashState s i n)

/-! ### Concrete stores used to evaluate the theorems -/

/-- A book with two copies on the shelf. -/
def exBook1 : Book :=
  { id := 1, title := "Dune", author := "Herbert", ISBN := "111", copies := 2 }

/-- A book with one copy on the shelf. -/
def exBook2 : Book :=
  { id := 2, title := "Emma", author := "Austen", ISBN := "222", copies := 1 }

/-- A book with no copy on the shelf. -/
def exBook0 : Book :=
  { id := 3, title := "Iliad", author := "Homer", ISBN := "333", copies := 0 }

/-- A store with three books and an empty ledger. -/
def exState : LibState :=
  { books := [exBook1, exBook2, exBook0], borrows := [], nextBorrowId := 0 }

/-- An active loan of `exBook1`. -/
def exBorrowed : BorrowRecord :=
  { id := 5, userId := 7, bookId := 1, borrowDate := 3, dueDate := 9,
    returnDate := none, status := BorrowStatus.borrowed, createdAt := 3 }

/-- A store holding one active loan of `exBook1`. -/
def exState2 : LibState :=
  { books := [exBook1], borrows := [exBorrowed], nextBorrowId := 6 }

/-- An active loan whose book (id 42) is no longer in the store. -/
def exOrphan : BorrowRecord :=
  { id := 5, userId := 7, bookId := 42, borrowDate := 3, dueDate := 9,
    returnDate := none, status := BorrowStatus.borrowed, createdAt := 3 }

/-- A store holding one active loan referencing a deleted book. -/
def exState3 : LibState :=
  { books := [exBook1], borrows := [exOrphan], nextBorrowId := 6 }

/-- A single-copy book. -/
def c4Book : Book :=
  { id := 1, title := "Hamlet", author := "Shakespeare", ISBN := "444", copies := 1 }

/-- The initial store for the cardinality claim: one single-copy book, empty
ledger. -/
def c4Start : LibState :=
  { books := [c4Book], borrows := [], nextBorrowId := 0 }

/-- The book `c4Book` after its only copy has been lent out. -/
def c4BookAfter : Book :=
  { id := 1, title := "Hamlet", author := "Shakespeare", ISBN := "444", copies := 0 }

/-- The loan created by borrowing `c4Book` from `c4Start`. -/
def c4Borrowed : BorrowRecord :=
  { id := 0, userId := 7, bookId := 1, borrowDate := 10, dueDate := 20,
    returnDate := none, status := BorrowStatus.borrowed, createdAt := 10 }

/-- The store after borrowing `c4Book` from `c4Start`. -/
def c4After : LibState :=
  { books := [c4BookAfter], borrows := [c4Borrowed], nextBorrowId := 1 }

/-- A five-copy book for the availability example. -/
def c7Book : Book :=
  { id := 1, title := "Ulysses", author := "Joyce", ISBN := "777", copies := 5 }

/-- A parameterized loan document used to populate concrete ledgers. -/
def mkBorrow (i bid : Nat) : BorrowRecord :=
  { id := i, userId := 1, bookId := bid, borrowDate := 0, dueDate := 30,
    returnDate := none, status := BorrowStatus.borrowed, createdAt := i }

/-- One book with copies = 5 and two active borrowed records. -/
def c7State : LibState :=
  { books := [c7Book], borrows := [mkBorrow 0 1, mkBorrow 1 1], nextBorrowId := 2 }

/-- Two books, one borrow each, the book with the larger id borrowed first. -/
def c8TieState : LibState :=
  { books := [exBook1, exBook2], borrows := [mkBorrow 0 2, mkBorrow 1 1],
    nextBorrowId := 2 }

/-- Book D for the most-borrowed example. -/
def c8BookD : Book :=
  { id := 4, title := "Odyssey", author := "Homer", ISBN := "888", copies := 1 }

/-- Four books with borrow counts 5, 3, 3 and 1: five loans of book 1, three
of book 2, three of book 3 and one of book 4. -/
def c8ExampleState : LibState :=
  { books := [exBook1, exBook2, exBook0, c8BookD],
    borrows := [mkBorrow 0 1, mkBorrow 1 1, mkBorrow 2 1, mkBorrow 3 1,
      mkBorrow 4 1, mkBorrow 5 2, mkBorrow 6 2, mkBorrow 7 2, mkBorrow 8 3,
      mkBorrow 9 3, mkBorrow 10 3, mkBorrow 11 4],
    nextBorrowId := 12 }

/-- The row the most-borrowed report produces for `exBook1` in
`c8ExampleState`. -/
def c8HeadEntry : MostBorrowedEntry :=
  { bookId := 1, title := "Dune", author := "Herbert", ISBN := "111",
    borrowCount := 5 }

/-- A loan by user 7 recorded later than `c9RecB`. -/
def c9RecA : BorrowRecord :=
  { id := 0, userId := 7, bookId := 1, borrowDate := 8, dueDate := 30,
    returnDate := none, status := BorrowStatus.borrowed, createdAt := 8 }

/-- A loan by user 9. -/
def c9RecB : BorrowRecord :=
  { id := 1, userId := 9, bookId := 2, borrowDate := 4, dueDate := 30,
    returnDate := none, status := BorrowStatus.borrowed, createdAt := 4 }

/-- A ledger holding loans of two different users. -/
def c9State : LibState :=
  { books := [exBook1, exBook2], borrows := [c9RecA, c9RecB], nextBorrowId := 2 }

/-- A query with no explicit filters and default pagination. -/
def c9Query : BorrowQuery :=
  { page := none, limit := none, userId := none, bookId := none, status := none }

/-- The restricted caller: a Member with id 7. -/
def c9Member : CurrentUser := { id := 7, role := Role.Member }

/-! ### Lookup and save lemmas -/

theorem findBook_id {books : List Book} {bid : Nat} {b : Book}
    (h : findBook books bid = some b) : b.id = bid := by
  have := List.find?_some h
  simpa using this

theorem findBook_mem {books : List Book} {bid : Nat} {b : Book}
    (h : findBook books bid = some b) : b ∈ books :=
  List.mem_of_find?_eq_some h

theorem findBorrow_id {rs : List BorrowRecord} {i : Nat} {r : BorrowRecord}
    (h : findBorrow rs i = some r) : r.id = i := by
  have := List.find?_some h
  simpa using this

theorem findBorrow_mem {rs : List BorrowRecord} {i : Nat} {r : BorrowRecord}
    (h : findBorrow rs i = some r) : r ∈ rs :=
  List.mem_of_find?_eq_some h

theorem findBook_saveBook_ne {books : List Book} {nb : Book} {bid : Nat}
    (h : nb.id ≠ bid) : findBook (saveBook books nb) bid = findBook books bid := by
  induction books with
  | nil => rfl
  | cons b bs ih =>
    by_cases hb : b.id = nb.id
    · have hbbid : ¬ b.id = bid := by
        rw [hb]; exact h
      simp only [saveBook, if_pos hb, findBook]
      rw [List.find?_cons_of_neg _ (by simpa using h),
        List.find?_cons_of_neg _ (by simpa using hbbid)]
    · simp only [saveBook, if_neg hb, findBook] at ih ⊢
      by_cases hbid : b.id = bid
      · rw [List.find?_cons_of_pos _ (by simpa using hbid),
          List.find?_cons_of_pos _ (by simpa using hbid)]
      · rw [List.find?_cons_of_neg _ (by simpa using hbid),
          List.find?_cons_of_neg _ (by simpa using hbid)]
        exact ih

theorem findBook_saveBook_self {books : List Book} {nb b : Book}
    (h : findBook books nb.id = some b) :
    findBook (saveBook books nb) nb.id = some nb := by
  induction books with
  | nil => simp [findBook] at h
  | cons x xs ih =>
    by_cases hx : x.id = nb.id
    · simp only [saveBook, if_pos hx, findBook]
      rw [List.find?_cons_of_pos _ (by simp)]
    · simp only [saveBook, if_neg hx, findBook] at ih ⊢
      rw [List.find?_cons_of_neg _ (by simpa using hx)]
      simp only [findBook] at h
      rw [List.find?_cons_of_neg _ (by simpa using hx)] at h
      exact ih h

theorem mem_saveBook {books : List Book} {nb x : Book}
    (h : x ∈ saveBook books nb) : x ∈ books ∨ x = nb := by
  induction books with
  | nil => simp [saveBook] at h
  | cons b bs ih =>
    by_cases hb : b.id = nb.id
    · simp only [saveBook, if_pos hb] at h
      rcases List.mem_cons.mp h with h1 | h1
      · exact Or.inr h1
      · exact Or.inl (List.mem_cons_of_mem _ h1)
    · simp only [saveBook, if_neg hb] at h
      rcases List.mem_cons.mp h with h1 | h1
      · exact Or.inl (h1 ▸ List.mem_cons_self _ _)
      · rcases ih h1 with h2 | h2
        · exact Or.inl (List.mem_cons_of_mem _ h2)
        · exact Or.inr h2

theorem findBorrow_updateBorrow_ne {rs : List BorrowRecord}
    {i j : Nat} {st : BorrowStatus} {rd : Option Nat} (h : j ≠ i) :
    findBorrow (updateBorrow rs i st rd) j = findBorrow rs j := by
  induction rs with
  | nil => rfl
  | cons r rest ih =>
    by_cases hr : r.id = i
    · have hrj : ¬ r.id = j := by
        rw [hr]; exact fun hc => h hc.symm
      simp only [updateBorrow, if_pos hr, findBorrow]
      rw [List.find?_cons_of_neg _ (by simpa using hrj),
        List.find?_cons_of_neg _ (by simpa using hrj)]
    · simp only [updateBorrow, if_neg hr, findBorrow] at ih ⊢
      by_cases hj : r.id = j
      · rw [List.find?_cons_of_pos _ (by simpa using hj),
          List.find?_cons_of_pos _ (by simpa using hj)]
      · rw [List.find?_cons_of_neg _ (by simpa using hj),
          List.find?_cons_of_neg _ (by simpa using hj)]
        exact ih

theorem findBorrow_updateBorrow_self {rs : List BorrowRecord}
    {i : Nat} {r : BorrowRecord} {st : BorrowStatus} {rd : Option Nat}
    (h : findBorrow rs i = some r) :
    findBorrow (updateBorrow rs i st rd) i =
      some { r with status := st, returnDate := rd } := by
  induction rs with
  | nil => simp [findBorrow] at h
  | cons x xs ih =>
    by_cases hx : x.id = i
    · simp only [findBorrow] at h
      rw [List.find?_cons_of_pos _ (by simpa using hx)] at h
      have hxr : x = r := by simpa using h
      subst hxr
      simp only [updateBorrow, if_pos hx, findBorrow]
      rw [List.find?_cons_of_pos _ (by simpa using hx)]
    · simp only [findBorrow] at h
      rw [List.find?_cons_of_neg _ (by simpa using hx)] at h
      simp only [updateBorrow, if_neg hx, findBorrow] at ih ⊢
      rw [List.find?_cons_of_neg _ (by simpa using hx)]
      exact ih h

/-! ### Characterization of successful calls -/

theorem borrowBook_ok {s : LibState} {u b d n : Nat} {s1 : LibState}
    {r : BorrowRecord} (h : borrowBook s u b d n = .ok (s1, r)) :
    ∃ book, findBook s.books b = some book ∧ 0 < book.copies ∧
      r = { id := s.nextBorrowId, userId := u, bookId := b, borrowDate := n,
            dueDate := d, returnDate := none, status := BorrowStatus.borrowed,
            createdAt := n } ∧
      s1.books = saveBook s.books { book with copies := book.copies - 1 } ∧
      s1.borrows = s.borrows ++ [r] ∧
      s1.nextBorrowId = s.nextBorrowId + 1 := by
  cases hfb : findBook s.books b with
  | none =>
    simp only [borrowBook, hfb] at h
    exact Except.noConfusion h
  | some book =>
    simp only [borrowBook, hfb] at h
    by_cases hc : book.copies ≤ 0
    · rw [if_pos hc] at h
      exact Except.noConfusion h
    · rw [if_neg hc] at h
      simp only [Except.ok.injEq, Prod.mk.injEq] at h
      obtain ⟨hs, hr⟩ := h
      refine ⟨book, rfl, by omega, hr.symm, ?_, ?_, ?_⟩
      · rw [← hs]
      · rw [← hs, hr]
      · rw [← hs]

theorem returnBook_ok {s : LibState} {i u n : Nat} {s1 : LibState}
    {r1 : BorrowRecord} (h : returnBook s i u n = .ok (s1, r1)) :
    ∃ borrow, findBorrow s.borrows i = some borrow ∧
      borrow.status = BorrowStatus.borrowed ∧
      r1 = { borrow with status := BorrowStatus.returned, returnDate := some n } ∧
      s1.borrows = updateBorrow s.borrows i BorrowStatus.returned (some n) ∧
      s1.nextBorrowId = s.nextBorrowId ∧
      (∃ book, findBook s.books borrow.bookId = some book ∧
        s1.books = saveBook s.books { book with copies := book.copies + 1 }) := by
  cases hfb : findBorrow s.borrows i with
  | none =>
    simp only [returnBook, hfb] at h
    exact Except.noConfusion h
  | some borrow =>
    simp only [returnBook, hfb] at h
    by_cases hst : borrow.status = BorrowStatus.borrowed
    · rw [if_pos hst] at h
      cases hbk : findBook s.books borrow.bookId with
      | none =>
        rw [hbk] at h
        exact Except.noConfusion h
      | some book =>
        rw [hbk] at h
        simp only [Except.ok.injEq, Prod.mk.injEq] at h
        obtain ⟨hs, hr⟩ := h
        exact ⟨borrow, rfl, hst, hr.symm, by rw [← hs], by rw [← hs],
          book, hbk, by rw [← hs]⟩
    · rw [if_neg hst] at h
      exact Except.noConfusion h

theorem returnBook_crash {s : LibState} {i u n : Nat}
    (h : returnBook s i u n =
      .error "TypeError: Cannot read properties of null (reading _id)") :
    ∃ borrow, findBorrow s.borrows i = some borrow ∧
      borrow.status = BorrowStatus.borrowed ∧
      findBook s.books borrow.bookId = none := by
  cases hfb : findBorrow s.borrows i with
  | none =>
    simp only [returnBook, hfb] at h
    rw [Except.error.injEq] at h
    exact absurd h (by decide)
  | some borrow =>
    simp only [returnBook, hfb] at h
    by_cases hst : borrow.status = BorrowStatus.borrowed
    · rw [if_pos hst] at h
      cases hbk : findBook s.books borrow.bookId with
      | none => exact ⟨borrow, rfl, hst, hbk⟩
      | some book =>
        rw [hbk] at h
        exact Except.noConfusion h
    · rw [if_neg hst] at h
      rw [Except.error.injEq] at h
      exact absurd h (by decide)

/-! ### Counting lemmas -/

theorem activeCount_append (rs l : List BorrowRecord) (bid : Nat) :
    activeCount (rs ++ l) bid = activeCount rs bid + activeCount l bid :=
  List.countP_append _ _ _

theorem activeCount_updateBorrow {rs : List BorrowRecord} {i : Nat}
    {r : BorrowRecord} (hf : findBorrow rs i = some r)
    (hst : r.status = BorrowStatus.borrowed) (rd : Option Nat) (bid : Nat) :
    activeCount (updateBorrow rs i BorrowStatus.returned rd) bid +
      (if r.bookId = bid then 1 else 0) = activeCount rs bid := by
  induction rs with
  | nil => simp [findBorrow] at hf
  | cons x xs ih =>
    by_cases hx : x.id = i
    · simp only [findBorrow] at hf
      rw [List.find?_cons_of_pos _ (by simpa using hx)] at hf
      have hxr : x = r := by simpa using hf
      subst hxr
      simp only [updateBorrow, if_pos hx, activeCount, List.countP_cons]
      have h1 : decide (x.bookId = bid ∧ x.status = BorrowStatus.borrowed)
          = decide (x.bookId = bid) := by
        simp [hst]
      have h2 : (decide (x.bookId = bid ∧
          BorrowStatus.returned = BorrowStatus.borrowed)) = false := by
        simp
      simp only [h1, h2, activeCount] at *
      by_cases hb : x.bookId = bid
      · simp [hb]
      · simp [hb]
    · simp only [findBorrow] at hf
      rw [List.find?_cons_of_neg _ (by simpa using hx)] at hf
      simp only [updateBorrow, if_neg hx, activeCount, List.countP_cons]
      have := ih hf
      simp only [activeCount] at this
      omega

/-! ### Step lemmas for the conservation and non-negativity invariants -/

theorem findBook_saveBook_self_id {books : List Book} {nb b : Book} {bid : Nat}
    (hid : nb.id = bid) (h : findBook books bid = some b) :
    findBook (saveBook books nb) bid = some nb := by
  subst hid
  exact findBook_saveBook_self h

theorem stock_borrow_eq {s s1 : LibState} {r : BorrowRecord} {u b d n : Nat}
    (h : borrowBook s u b d n = .ok (s1, r)) (bid : Nat) :
    stock s1 bid = stock s bid := by
  obtain ⟨book, hfb, hpos, hr, hbooks, hborrows, _⟩ := borrowBook_ok h
  have hbookid : book.id = b := findBook_id hfb
  by_cases hbb : b = bid
  · subst hbb
    have hcount : activeCount s1.borrows b = activeCount s.borrows b + 1 := by
      rw [hborrows, activeCount_append]
      simp [activeCount, List.countP, List.countP.go, hr]
    have hself : findBook s1.books b = some { book with copies := book.copies - 1 } := by
      rw [hbooks]
      exact findBook_saveBook_self_id (by simpa using hbookid) hfb
    have hcop : copiesOf s1 b = copiesOf s b - 1 := by
      simp only [copiesOf, hself, hfb]
      rfl
    simp only [stock, hcount, hcop]
    push_cast
    ring
  · have hcount : activeCount s1.borrows bid = activeCount s.borrows bid := by
      rw [hborrows, activeCount_append]
      simp [activeCount, List.countP, List.countP.go, hr, hbb]
    have hne : ({ book with copies := book.copies - 1 } : Book).id ≠ bid := by
      simpa [hbookid] using hbb
    have hcop : copiesOf s1 bid = copiesOf s bid := by
      simp only [copiesOf, hbooks, findBook_saveBook_ne hne]
    simp [stock, hcount, hcop]

theorem stock_return_le {s s1 : LibState} {r1 : BorrowRecord} {i u n : Nat}
    (h : returnBook s i u n = .ok (s1, r1)) (bid : Nat) :
    stock s1 bid ≤ stock s bid := by
  obtain ⟨borrow, hfb, hst, hr, hborrows, _, book, hsome, hsave⟩ := returnBook_ok h
  have hcount := activeCount_updateBorrow hfb hst (some n) bid
  rw [← hborrows] at hcount
  have hbookid : book.id = borrow.bookId := findBook_id hsome
  by_cases hbb : borrow.bookId = bid
  · rw [hbb] at hsome hbookid
    have hself : findBook s1.books bid = some { book with copies := book.copies + 1 } := by
      rw [hsave]
      exact findBook_saveBook_self_id (by simpa using hbookid) hsome
    have hcop : copiesOf s1 bid = copiesOf s bid + 1 := by
      simp only [copiesOf, hself, hsome]
      rfl
    rw [if_pos hbb] at hcount
    simp only [stock, hcop]
    omega
  · have hne : ({ book with copies := book.copies + 1 } : Book).id ≠ bid := by
      simpa [hbookid] using hbb
    have hcop : copiesOf s1 bid = copiesOf s bid := by
      simp only [copiesOf, hsave, findBook_saveBook_ne hne]
    rw [if_neg hbb] at hcount
    simp only [stock, hcop]
    omega

theorem stock_crash_le {s : LibState} {i u n : Nat}
    (h : returnBook s i u n =
      .error "TypeError: Cannot read properties of null (reading _id)")
    (bid : Nat) : stock (returnBookCrashState s i n) bid ≤ stock s bid := by
  obtain ⟨borrow, hfb, hst, -⟩ := returnBook_crash h
  have hcount := activeCount_updateBorrow hfb hst (some n) bid
  have h1 : activeCount (returnBookCrashState s i n).borrows bid ≤
      activeCount s.borrows bid := by
    show activeCount (updateBorrow s.borrows i BorrowStatus.returned (some n)) bid ≤
      activeCount s.borrows bid
    by_cases hbb : borrow.bookId = bid
    · rw [if_pos hbb] at hcount
      omega
    · rw [if_neg hbb] at hcount
      omega
  have h2 : copiesOf (returnBookCrashState s i n) bid = copiesOf s bid := rfl
  simp only [stock, h2]
  omega

theorem stock_reachable_le {s0 s : LibState} (h : Reachable s0 s) (bid : Nat) :
    stock s bid ≤ stock s0 bid := by
  induction h with
  | refl => exact le_refl _
  | borrow u b d n _ hstep ih => exact le_trans (le_of_eq (stock_borrow_eq hstep bid)) ih
  | giveBack i u n _ hstep ih => exact le_trans (stock_return_le hstep bid) ih
  | giveBackCrash i u n _ hstep ih => exact le_trans (stock_crash_le hstep bid) ih

theorem copiesNonneg_borrow {s s1 : LibState} {r : BorrowRecord} {u b d n : Nat}
    (h : borrowBook s u b d n = .ok (s1, r))
    (h0 : ∀ bk ∈ s.books, 0 ≤ bk.copies) :
    ∀ bk ∈ s1.books, 0 ≤ bk.copies := by
  obtain ⟨book, hfb, hpos, _, hbooks, _, _⟩ := borrowBook_ok h
  intro bk hbk
  rw [hbooks] at hbk
  rcases mem_saveBook hbk with hm | hm
  · exact h0 bk hm
  · rw [hm]
    simp only
    omega

theorem copiesNonneg_return {s s1 : LibState} {r1 : BorrowRecord} {i u n : Nat}
    (h : returnBook s i u n = .ok (s1, r1))
    (h0 : ∀ bk ∈ s.books, 0 ≤ bk.copies) :
    ∀ bk ∈ s1.books, 0 ≤ bk.copies := by
  obtain ⟨borrow, _, _, _, _, _, book, hsome, hsave⟩ := returnBook_ok h
  intro bk hbk
  rw [hsave] at hbk
  rcases mem_saveBook hbk with hm | hm
  · exact h0 bk hm
  · rw [hm]
    simp only
    have := h0 book (findBook_mem hsome)
    omega

theorem copiesNonneg_crash {s : LibState} {i n : Nat}
    (h0 : ∀ bk ∈ s.books, 0 ≤ bk.copies) :
    ∀ bk ∈ (returnBookCrashState s i n).books, 0 ≤ bk.copies := h0

theorem copiesNonneg_reachable {s0 s : LibState} (h : Reachable s0 s)
    (h0 : ∀ bk ∈ s0.books, 0 ≤ bk.copies) : ∀ bk ∈ s.books, 0 ≤ bk.copies := by
  induction h with
  | refl => exact h0
  | borrow u b d n _ hstep ih => exact copiesNonneg_borrow hstep ih
  | giveBack i u n _ hstep ih => exact copiesNonneg_return hstep ih
  | giveBackCrash i u n _ hstep ih => exact copiesNonneg_crash ih

/-! ### Sorting lemmas -/

theorem perm_insertDescBy {α : Type} (key : α → Nat) (x : α) (l : List α) :
    List.Perm (insertDescBy key x l) (x :: l) := by
  induction l with
  | nil => exact List.Perm.refl _
  | cons y ys ih =>
    by_cases hy : key y ≤ key x
    · simp only [insertDescBy, if_pos hy]
      exact List.Perm.refl _
    · simp only [insertDescBy, if_neg hy]
      exact List.Perm.trans (ih.cons y) (List.Perm.swap x y ys)

theorem perm_sortDescBy {α : Type} (key : α → Nat) (l : List α) :
    List.Perm (sortDescBy key l) l := by
  induction l with
  | nil => exact List.Perm.refl _
  | cons x xs ih =>
    exact List.Perm.trans (perm_insertDescBy key x (sortDescBy key xs)) (ih.cons x)

theorem sorted_insertDescBy {α : Type} {key : α → Nat} {x : α} {l : List α}
    (h : l.Pairwise (fun a b => key b ≤ key a)) :
    (insertDescBy key x l).Pairwise (fun a b => key b ≤ key a) := by
  induction l with
  | nil => simp [insertDescBy]
  | cons y ys ih =>
    rcases List.pairwise_cons.mp h with ⟨hy, hys⟩
    by_cases hxy : key y ≤ key x
    · simp only [insertDescBy, if_pos hxy]
      refine List.pairwise_cons.mpr ⟨?_, h⟩
      intro z hz
      rcases List.mem_cons.mp hz with hz | hz
      · rw [hz]; exact hxy
      · exact le_trans (hy z hz) hxy
    · simp only [insertDescBy, if_neg hxy]
      refine List.pairwise_cons.mpr ⟨?_, ih hys⟩
      intro z hz
      have hz2 : z ∈ x :: ys := (perm_insertDescBy key x ys).mem_iff.mp hz
      rcases List.mem_cons.mp hz2 with hz2 | hz2
      · rw [hz2]; omega
      · exact hy z hz2

theorem sorted_sortDescBy {α : Type} (key : α → Nat) (l : List α) :
    (sortDescBy key l).Pairwise (fun a b => key b ≤ key a) := by
  induction l with
  | nil => simp [sortDescBy]
  | cons x xs ih => exact sorted_insertDescBy ih

/-! ### Grouping lemmas for the most-borrowed aggregation -/

theorem lookupCount_bump (l : List (Nat × Nat)) (b k : Nat) :
    lookupCount (bump l b) k = lookupCount l k + (if k = b then 1 else 0) := by
  induction l with
  | nil =>
    by_cases hk : k = b
    · simp [bump, lookupCount, List.find?, hk]
    · have : ¬ b = k := fun hc => hk hc.symm
      simp [bump, lookupCount, List.find?, this, hk]
  | cons p rest ih =>
    obtain ⟨k0, c0⟩ := p
    by_cases hb : k0 = b
    · simp only [bump, if_pos hb]
      by_cases hk : k0 = k
      · have h1 : k = b := by omega
        simp [lookupCount, List.find?, hk, h1]
      · simp only [lookupCount] at *
        rw [List.find?_cons_of_neg _ (by simpa using hk),
          List.find?_cons_of_neg _ (by simpa using hk)]
        have h2 : ¬ k = b := by omega
        simp [h2]
    · simp only [bump, if_neg hb]
      by_cases hk : k0 = k
      · have h2 : ¬ k = b := by omega
        simp [lookupCount, List.find?, hk, h2]
      · simp only [lookupCount] at *
        rw [List.find?_cons_of_neg _ (by simpa using hk),
          List.find?_cons_of_neg _ (by simpa using hk)]
        exact ih

theorem lookupCount_foldl (rs : List BorrowRecord) (acc : List (Nat × Nat))
    (k : Nat) :
    lookupCount (rs.foldl (fun a r => bump a r.bookId) acc) k =
      lookupCount acc k + rs.countP (fun r => decide (r.bookId = k)) := by
  induction rs generalizing acc with
  | nil => simp [List.countP, List.countP.go]
  | cons r rest ih =>
    simp only [List.foldl_cons, List.countP_cons]
    rw [ih (bump acc r.bookId), lookupCount_bump]
    by_cases hk : r.bookId = k
    · simp only [hk]
      simp
      omega
    · have hk2 : ¬ k = r.bookId := fun hc => hk hc.symm
      simp [hk, hk2]

theorem lookupCount_groupCounts (rs : List BorrowRecord) (k : Nat) :
    lookupCount (groupCounts rs) k = rs.countP (fun r => decide (r.bookId = k)) := by
  have := lookupCount_foldl rs [] k
  simpa [groupCounts, lookupCount, List.find?] using this

theorem mem_keys_bump {l : List (Nat × Nat)} {b a : Nat}
    (h : a ∈ (bump l b).map Prod.fst) : a ∈ l.map Prod.fst ∨ a = b := by
  induction l with
  | nil => simpa [bump] using h
  | cons p rest ih =>
    obtain ⟨k0, c0⟩ := p
    by_cases hb : k0 = b
    · simp only [bump, if_pos hb, List.map_cons] at h
      rcases List.mem_cons.mp h with h1 | h1
      · exact Or.inl (by simp [h1])
      · exact Or.inl (by simp [h1])
    · simp only [bump, if_neg hb, List.map_cons] at h
      rcases List.mem_cons.mp h with h1 | h1
      · exact Or.inl (by simp [h1])
      · rcases ih h1 with h2 | h2
        · exact Or.inl (by simp [h2])
        · exact Or.inr h2

theorem keysNodup_bump {l : List (Nat × Nat)} {b : Nat}
    (h : (l.map Prod.fst).Nodup) : ((bump l b).map Prod.fst).Nodup := by
  induction l with
  | nil => simp [bump]
  | cons p rest ih =>
    obtain ⟨k0, c0⟩ := p
    simp only [List.map_cons, List.nodup_cons] at h
    obtain ⟨hk0, hrest⟩ := h
    by_cases hb : k0 = b
    · simp only [bump, if_pos hb, List.map_cons, List.nodup_cons]
      exact ⟨hk0, hrest⟩
    · simp only [bump, if_neg hb, List.map_cons, List.nodup_cons]
      refine ⟨?_, ih hrest⟩
      intro hc
      rcases mem_keys_bump hc with h1 | h1
      · exact hk0 h1
      · exact hb h1

theorem keysNodup_groupCounts (rs : List BorrowRecord) :
    ((groupCounts rs).map Prod.fst).Nodup := by
  have main : ∀ (l : List BorrowRecord) (acc : List (Nat × Nat)),
      (acc.map Prod.fst).Nodup →
      ((l.foldl (fun a r => bump a r.bookId) acc).map Prod.fst).Nodup := by
    intro l
    induction l with
    | nil => intro acc h; simpa using h
    | cons r rest ih =>
      intro acc h
      exact ih (bump acc r.bookId) (keysNodup_bump h)
  exact main rs [] (by simp)

theorem find?_of_mem_keysNodup {l : List (Nat × Nat)} {k c : Nat}
    (hnd : (l.map Prod.fst).Nodup) (hm : (k, c) ∈ l) :
    l.find? (fun p => p.1 = k) = some (k, c) := by
  induction l with
  | nil => simp at hm
  | cons p rest ih =>
    obtain ⟨k0, c0⟩ := p
    simp only [List.map_cons, List.nodup_cons] at hnd
    obtain ⟨hk0, hrest⟩ := hnd
    rcases List.mem_cons.mp hm with h1 | h1
    · have hk : k0 = k := by
        have := congrArg Prod.fst h1
        simpa using this.symm
      rw [List.find?_cons_of_pos _ (by simpa using hk)]
      rw [← h1]
    · have hne : ¬ k0 = k := by
        intro hc
        apply hk0
        rw [hc]
        exact List.mem_map.mpr ⟨(k, c), h1, rfl⟩
      rw [List.find?_cons_of_neg _ (by simpa using hne)]
      exact ih hrest h1

theorem mem_groupCounts_count {rs : List BorrowRecord} {k c : Nat}
    (h : (k, c) ∈ groupCounts rs) :
    c = rs.countP (fun r => decide (r.bookId = k)) := by
  have hfind := find?_of_mem_keysNodup (keysNodup_groupCounts rs) h
  have := lookupCount_groupCounts rs k
  rw [lookupCount, hfind] at this
  simpa using this

theorem pairwise_filterMap {α β : Type} {R : α → α → Prop} {S : β → β → Prop}
    {f : α → Option β} {l : List α}
    (hf : ∀ a b x y, R a b → f a = some x → f b = some y → S x y)
    (h : l.Pairwise R) : (l.filterMap f).Pairwise S := by
  induction h with
  | nil => simp
  | @cons a l2 ha hl ih =>
    simp only [List.filterMap_cons]
    cases hfa : f a with
    | none => exact ih
    | some x =>
      refine List.pairwise_cons.mpr ⟨?_, ih⟩
      intro y hy
      obtain ⟨b, hb, hfb⟩ := List.mem_filterMap.mp hy
      exact hf a b x y (ha b hb) hfa hfb

/-! ### Lemmas on the availability totals fold -/

theorem availabilityFold_totalBooks (l : List AvailabilityEntry)
    (acc : AvailabilityTotals) :
    (l.foldl availabilityStep acc).totalBooks =
      acc.totalBooks + (l.map (fun e => e.totalCopies)).sum := by
  induction l generalizing acc with
  | nil => simp
  | cons e rest ih =>
    simp only [List.foldl_cons, List.map_cons, List.sum_cons, ih, availabilityStep]
    ring

theorem availabilityFold_borrowedBooks (l : List AvailabilityEntry)
    (acc : AvailabilityTotals) :
    (l.foldl availabilityStep acc).borrowedBooks =
      acc.borrowedBooks + (l.map (fun e => e.borrowedCopies)).sum := by
  induction l generalizing acc with
  | nil => simp
  | cons e rest ih =>
    simp only [List.foldl_cons, List.map_cons, List.sum_cons, ih, availabilityStep]
    ring

theorem availabilityFold_availableBooks (l : List AvailabilityEntry)
    (acc : AvailabilityTotals) :
    (l.foldl availabilityStep acc).availableBooks =
      acc.availableBooks + (l.map (fun e => max 0 e.availableCopies)).sum := by
  induction l generalizing acc with
  | nil => simp
  | cons e rest ih =>
    simp only [List.foldl_cons, List.map_cons, List.sum_cons, ih, availabilityStep]
    ring

theorem findBorrow_append_fresh {rs : List BorrowRecord} {r : BorrowRecord}
    (hfresh : ∀ x ∈ rs, x.id ≠ r.id) :
    findBorrow (rs ++ [r]) r.id = some r := by
  induction rs with
  | nil =>
    simp only [List.nil_append, findBorrow]
    rw [List.find?_cons_of_pos _ (by simp)]
  | cons x xs ih =>
    have hx : x.id ≠ r.id := hfresh x (List.mem_cons_self x xs)
    simp only [List.cons_append, findBorrow]
    rw [List.find?_cons_of_neg _ (by simpa using hx)]
    exact ih (fun y hy => hfresh y (List.mem_cons_of_mem x hy))

/-! ### Concrete evaluation lemmas -/

theorem c4_borrow_step : borrowBook c4Start 7 1 20 10 = .ok (c4After, c4Borrowed) := rfl

theorem c4_reach : Reachable c4Start c4After :=
  Reachable.borrow 7 1 20 10 (Reachable.refl c4Start) c4_borrow_step

/-! ### Claims -/

/-- C5: for every book, the copies count never becomes negative: every state
reachable from a state where all copies counts are non-negative, via any
sequence of `borrowBook` and `returnBook` operations, has all copies counts
non-negative. -/
theorem copies_never_negative {s0 s : LibState} (h : Reachable s0 s)
    (h0 : ∀ bk ∈ s0.books, 0 ≤ bk.copies) :
    ∀ bk ∈ s.books, 0 ≤ bk.copies :=
  copiesNonneg_reachable h h0

/-- Witness for C5: evaluated after borrowing the single copy of `c4Book`,
that book's copies count is still non-negative. -/
theorem copies_never_negative_witness : (0 : Int) ≤ c4BookAfter.copies :=
  copies_never_negative c4_reach (by decide) c4BookAfter (by decide)

/-- Counterexample to C4 as stated: after borrowing the single copy of
`c4Book` from `c4Start` (a well-formed state: copies = 1, no borrows), the
reachable state `c4After` has one record in state borrowed while the book's
current copies field is 0, so the number of simultaneously borrowed records
exceeds the current copies field. -/
theorem activeBorrows_le_current_copies_counterexample :
    Reachable c4Start c4After ∧
    copiesOf c4Start 1 = 1 ∧ activeCount c4Start.borrows 1 = 0 ∧
    activeCount c4After.borrows 1 = 1 ∧ copiesOf c4After 1 = 0 ∧
    ¬ ((activeCount c4After.borrows 1 : Int) ≤ copiesOf c4After 1) :=
  ⟨c4_reach, by decide, by decide, by decide, by decide, by decide⟩

/-- C4 (amended): in every state reachable from a state whose copies counts
are all non-negative, the number of simultaneously borrowed records of a book
is at most the initial active-borrow count plus the initial copies field (for
a book with no active borrows initially: at most its initial copies, the
total owned). The current copies field does not bound it, as the
counterexample shows. -/
theorem activeBorrows_le_initial_stock {s0 s : LibState} (h : Reachable s0 s)
    (h0 : ∀ bk ∈ s0.books, 0 ≤ bk.copies) (bid : Nat) :
    (activeCount s.borrows bid : Int) ≤
      (activeCount s0.borrows bid : Int) + copiesOf s0 bid := by
  have h1 := stock_reachable_le h bid
  have h2 : 0 ≤ copiesOf s bid := by
    cases hf : findBook s.books bid with
    | none => simp [copiesOf, hf]
    | some b =>
      have hb := copiesNonneg_reachable h h0 b (findBook_mem hf)
      simpa [copiesOf, hf] using hb
  simp only [stock] at h1
  omega

/-- Witness for the amended C4: in `c4After` the one active borrow of book 1
is within the initial stock bound of `c4Start`. -/
theorem activeBorrows_le_initial_stock_witness :
    (activeCount c4After.borrows 1 : Int) ≤
      (activeCount c4Start.borrows 1 : Int) + copiesOf c4Start 1 :=
  activeBorrows_le_initial_stock c4_reach (by decide) 1

/-- C1: when the book exists and has copies > 0, `borrowBook` decreases that
book's copies by exactly 1, appends exactly one new record with status
borrowed, borrowDate = now and dueDate = the supplied value, returns that
record, and changes no other book and no other record. -/
theorem borrowBook_success_spec {s : LibState} {u bid d n : Nat} {book : Book}
    (hfind : findBook s.books bid = some book) (hpos : 0 < book.copies) :
    ∃ s1 r, borrowBook s u bid d n = .ok (s1, r) ∧
      r.status = BorrowStatus.borrowed ∧ r.borrowDate = n ∧ r.dueDate = d ∧
      r.userId = u ∧ r.bookId = bid ∧
      s1.borrows = s.borrows ++ [r] ∧
      findBook s1.books bid = some { book with copies := book.copies - 1 } ∧
      (∀ b2, b2 ≠ bid → findBook s1.books b2 = findBook s.books b2) ∧
      s1.nextBorrowId = s.nextBorrowId + 1 := by
  have hnot : ¬ book.copies ≤ 0 := by omega
  have heq : borrowBook s u bid d n = .ok
      ({ books := saveBook s.books { book with copies := book.copies - 1 },
         borrows := s.borrows ++
           [{ id := s.nextBorrowId, userId := u, bookId := bid, borrowDate := n,
              dueDate := d, returnDate := none, status := BorrowStatus.borrowed,
              createdAt := n }],
         nextBorrowId := s.nextBorrowId + 1 },
       { id := s.nextBorrowId, userId := u, bookId := bid, borrowDate := n,
         dueDate := d, returnDate := none, status := BorrowStatus.borrowed,
         createdAt := n }) := by
    simp only [borrowBook, hfind, if_neg hnot]
  refine ⟨_, _, heq, rfl, rfl, rfl, rfl, rfl, rfl, ?_, ?_, rfl⟩
  · exact findBook_saveBook_self_id (by simpa using findBook_id hfind) hfind
  · intro b2 hb2
    have hne : ({ book with copies := book.copies - 1 } : Book).id ≠ b2 := by
      show ¬ book.id = b2
      rw [findBook_id hfind]
      exact fun hc => hb2 hc.symm
    exact findBook_saveBook_ne hne

/-- Witness for C1: borrowing `exBook1` from `exState` behaves as specified. -/
theorem borrowBook_success_spec_witness :
    ∃ s1 r, borrowBook exState 7 1 9 4 = .ok (s1, r) ∧
      r.status = BorrowStatus.borrowed ∧ r.borrowDate = 4 ∧ r.dueDate = 9 ∧
      r.userId = 7 ∧ r.bookId = 1 ∧
      s1.borrows = exState.borrows ++ [r] ∧
      findBook s1.books 1 = some { exBook1 with copies := exBook1.copies - 1 } ∧
      (∀ b2, b2 ≠ 1 → findBook s1.books b2 = findBook exState.books b2) ∧
      s1.nextBorrowId = exState.nextBorrowId + 1 :=
  @borrowBook_success_spec exState 7 1 9 4 exBook1 rfl (by decide)

/-- C2: `borrowBook` fails with "Book not found" exactly when the book does
not exist, with "Book not available" exactly when it exists with copies <= 0,
succeeds only when the book exists with copies > 0, and raises no other
error; a failing call raises before any write, so it performs no mutation. -/
theorem borrowBook_failure_spec (s : LibState) (u bid d n : Nat) :
    ((borrowBook s u bid d n = .error "Book not found") ↔
      findBook s.books bid = none) ∧
    ((borrowBook s u bid d n = .error "Book not available") ↔
      ∃ bk, findBook s.books bid = some bk ∧ bk.copies ≤ 0) ∧
    (∀ s1 r, borrowBook s u bid d n = .ok (s1, r) →
      ∃ bk, findBook s.books bid = some bk ∧ 0 < bk.copies) ∧
    (∀ e, borrowBook s u bid d n = .error e →
      e = "Book not found" ∨ e = "Book not available") := by
  cases hf : findBook s.books bid with
  | none =>
    refine ⟨?_, ?_, ?_, ?_⟩
    · simp only [borrowBook, hf]
    · simp only [borrowBook, hf]
      constructor
      · intro h
        rw [Except.error.injEq] at h
        exact absurd h (by decide)
      · rintro ⟨bk, hbk, -⟩
        exact Option.noConfusion hbk
    · intro s1 r h
      simp only [borrowBook, hf] at h
      exact Except.noConfusion h
    · intro e h
      simp only [borrowBook, hf] at h
      rw [Except.error.injEq] at h
      exact Or.inl h.symm
  | some book =>
    by_cases hc : book.copies ≤ 0
    · refine ⟨?_, ?_, ?_, ?_⟩
      · simp only [borrowBook, hf, if_pos hc]
        constructor
        · intro h
          rw [Except.error.injEq] at h
          exact absurd h (by decide)
        · intro h
          exact Option.noConfusion h
      · simp only [borrowBook, hf, if_pos hc]
        exact ⟨fun _ => ⟨book, rfl, hc⟩, fun _ => by trivial⟩
      · intro s1 r h
        simp only [borrowBook, hf, if_pos hc] at h
        exact Except.noConfusion h
      · intro e h
        simp only [borrowBook, hf, if_pos hc] at h
        rw [Except.error.injEq] at h
        exact Or.inr h.symm
    · refine ⟨?_, ?_, ?_, ?_⟩
      · simp only [borrowBook, hf, if_neg hc]
        constructor
        · intro h
          exact Except.noConfusion h
        · intro h
          exact Option.noConfusion h
      · simp only [borrowBook, hf, if_neg hc]
        constructor
        · intro h
          exact Except.noConfusion h
        · rintro ⟨bk, hbk, hle⟩
          have hbkeq : book = bk := Option.some.inj hbk
          rw [← hbkeq] at hle
          exact absurd hle hc
      · intro s1 r _
        exact ⟨book, rfl, by omega⟩
      · intro e h
        simp only [borrowBook, hf, if_neg hc] at h
        exact Except.noConfusion h

/-- Witness for C2: in `exState`, borrowing the absent book 99 fails with
"Book not found" and borrowing the zero-copy book 3 fails with
"Book not available". -/
theorem borrowBook_failure_spec_witness :
    borrowBook exState 7 99 9 4 = .error "Book not found" ∧
    borrowBook exState 7 3 9 4 = .error "Book not available" :=
  ⟨(borrowBook_failure_spec exState 7 99 9 4).1.mpr rfl,
   (borrowBook_failure_spec exState 7 3 9 4).2.1.mpr ⟨exBook0, rfl, by decide⟩⟩

/-- C3: `returnBook` fails with "Borrow record not found" when no record with
the id exists and with "This book is not currently borrowed" when the
record's status is not borrowed; on a borrowed record (whose book exists) it
marks the record returned with returnDate = now exactly once, increments the
book's copies by 1, changes nothing else, and a second return of the same
record fails with the conflict error and performs no further mutation. -/
theorem returnBook_spec (s : LibState) (i u n : Nat) :
    (findBorrow s.borrows i = none →
      returnBook s i u n = .error "Borrow record not found") ∧
    (∀ borrow, findBorrow s.borrows i = some borrow →
      borrow.status ≠ BorrowStatus.borrowed →
      returnBook s i u n = .error "This book is not currently borrowed") ∧
    (∀ borrow book, findBorrow s.borrows i = some borrow →
      borrow.status = BorrowStatus.borrowed →
      findBook s.books borrow.bookId = some book →
      ∃ s1 r1, returnBook s i u n = .ok (s1, r1) ∧
        r1.status = BorrowStatus.returned ∧ r1.returnDate = some n ∧
        r1.id = borrow.id ∧ r1.bookId = borrow.bookId ∧
        findBook s1.books borrow.bookId =
          some { book with copies := book.copies + 1 } ∧
        (∀ b2, b2 ≠ borrow.bookId →
          findBook s1.books b2 = findBook s.books b2) ∧
        findBorrow s1.borrows i = some r1 ∧
        (∀ j, j ≠ i → findBorrow s1.borrows j = findBorrow s.borrows j) ∧
        (∀ u2 n2,
          returnBook s1 i u2 n2 = .error "This book is not currently borrowed")) := by
  refine ⟨?_, ?_, ?_⟩
  · intro h
    simp only [returnBook, h]
  · intro borrow hfind hst
    simp only [returnBook, hfind, if_neg hst]
  · intro borrow book hfind hst hbook
    have heq : returnBook s i u n = .ok
        ({ s with
            borrows := updateBorrow s.borrows i BorrowStatus.returned (some n),
            books := saveBook s.books { book with copies := book.copies + 1 } },
         { borrow with status := BorrowStatus.returned, returnDate := some n }) := by
      simp only [returnBook, hfind, if_pos hst, hbook]
    refine ⟨_, _, heq, rfl, rfl, rfl, rfl, ?_, ?_, ?_, ?_, ?_⟩
    · exact findBook_saveBook_self_id (by simpa using findBook_id hbook) hbook
    · intro b2 hb2
      have hne : ({ book with copies := book.copies + 1 } : Book).id ≠ b2 := by
        show ¬ book.id = b2
        rw [findBook_id hbook]
        exact fun hc => hb2 hc.symm
      exact findBook_saveBook_ne hne
    · exact findBorrow_updateBorrow_self hfind
    · intro j hj
      exact findBorrow_updateBorrow_ne hj
    · intro u2 n2
      have hfind1 : findBorrow
          (updateBorrow s.borrows i BorrowStatus.returned (some n)) i =
          some { borrow with status := BorrowStatus.returned, returnDate := some n } :=
        findBorrow_updateBorrow_self hfind
      simp only [returnBook, hfind1]
      rw [if_neg (by simp)]

/-- Witness for C3: returning the active loan of `exState2` succeeds, flips
the record, restocks the book, and a second return is rejected. -/
theorem returnBook_spec_witness :
    ∃ s1 r1, returnBook exState2 5 7 11 = .ok (s1, r1) ∧
      r1.status = BorrowStatus.returned ∧ r1.returnDate = some 11 ∧
      r1.id = exBorrowed.id ∧ r1.bookId = exBorrowed.bookId ∧
      findBook s1.books exBorrowed.bookId =
        some { exBook1 with copies := exBook1.copies + 1 } ∧
      (∀ b2, b2 ≠ exBorrowed.bookId →
        findBook s1.books b2 = findBook exState2.books b2) ∧
      findBorrow s1.borrows 5 = some r1 ∧
      (∀ j, j ≠ 5 → findBorrow s1.borrows j = findBorrow exState2.borrows j) ∧
      (∀ u2 n2,
        returnBook s1 5 u2 n2 = .error "This book is not currently borrowed") :=
  (returnBook_spec exState2 5 7 11).2.2 exBorrowed exBook1 rfl rfl rfl

/-- Counterexample to C10 as stated: in `exState3` the active loan references
the absent book 42 — the claim's exact scenario — and `returnBook` rejects
with a TypeError instead of succeeding and returning the updated record: the
repository populates `bookId`, a missing book populates as null, and
`borrow.bookId._id` throws. -/
theorem returnBook_missing_book_counterexample :
    findBorrow exState3.borrows 5 = some exOrphan ∧
    exOrphan.status = BorrowStatus.borrowed ∧
    findBook exState3.books exOrphan.bookId = none ∧
    returnBook exState3 5 7 11 =
      .error "TypeError: Cannot read properties of null (reading _id)" :=
  ⟨rfl, rfl, rfl, rfl⟩

/-- C10 (amended): when the book referenced by a borrowed record no longer
exists, `returnBook` rejects with a TypeError raised by dereferencing the
null-populated book reference, instead of returning the updated record. The
rejection happens after the record update has been committed, so the store is
left with the record set to returned (returnDate = now) and with no book
modified. -/
theorem returnBook_missing_book {s : LibState} {i u n : Nat}
    {borrow : BorrowRecord} (hfind : findBorrow s.borrows i = some borrow)
    (hst : borrow.status = BorrowStatus.borrowed)
    (hbook : findBook s.books borrow.bookId = none) :
    returnBook s i u n =
      .error "TypeError: Cannot read properties of null (reading _id)" ∧
    (returnBookCrashState s i n).books = s.books ∧
    (returnBookCrashState s i n).borrows =
      updateBorrow s.borrows i BorrowStatus.returned (some n) ∧
    findBorrow (returnBookCrashState s i n).borrows i =
      some { borrow with status := BorrowStatus.returned, returnDate := some n } := by
  refine ⟨?_, rfl, rfl, findBorrow_updateBorrow_self hfind⟩
  simp only [returnBook, hfind, if_pos hst, hbook]

/-- Witness for the amended C10: returning the orphan loan of `exState3`
rejects with the TypeError while the crash store holds the flipped record and
the untouched Book collection. -/
theorem returnBook_missing_book_witness :
    returnBook exState3 5 7 11 =
      .error "TypeError: Cannot read properties of null (reading _id)" ∧
    (returnBookCrashState exState3 5 11).books = exState3.books ∧
    (returnBookCrashState exState3 5 11).borrows =
      updateBorrow exState3.borrows 5 BorrowStatus.returned (some 11) ∧
    findBorrow (returnBookCrashState exState3 5 11).borrows 5 =
      some { exOrphan with status := BorrowStatus.returned, returnDate := some 11 } :=
  @returnBook_missing_book exState3 5 7 11 exOrphan rfl rfl rfl

/-- C6: for a stored book with copies > 0 (in a store whose next borrow id is
fresh), a successful `borrowBook` followed by a successful `returnBook` of
the created record restores that book's copies to the pre-borrow value and
leaves every other book's lookup unchanged. -/
theorem borrow_return_roundtrip {s : LibState} {u bid d n u2 n2 : Nat}
    {book : Book} (hfind : findBook s.books bid = some book)
    (hpos : 0 < book.copies)
    (hfresh : ∀ x ∈ s.borrows, x.id ≠ s.nextBorrowId) :
    ∃ s1 r s2 r2, borrowBook s u bid d n = .ok (s1, r) ∧
      returnBook s1 r.id u2 n2 = .ok (s2, r2) ∧
      copiesOf s2 bid = copiesOf s bid ∧
      (∀ b2, b2 ≠ bid → findBook s2.books b2 = findBook s.books b2) := by
  have hnot : ¬ book.copies ≤ 0 := by omega
  have hbookid : book.id = bid := findBook_id hfind
  have heq1 : borrowBook s u bid d n = .ok
      ({ books := saveBook s.books { book with copies := book.copies - 1 },
         borrows := s.borrows ++
           [{ id := s.nextBorrowId, userId := u, bookId := bid, borrowDate := n,
              dueDate := d, returnDate := none, status := BorrowStatus.borrowed,
              createdAt := n }],
         nextBorrowId := s.nextBorrowId + 1 },
       { id := s.nextBorrowId, userId := u, bookId := bid, borrowDate := n,
         dueDate := d, returnDate := none, status := BorrowStatus.borrowed,
         createdAt := n }) := by
    simp only [borrowBook, hfind, if_neg hnot]
  have hfind1 : findBorrow
      (s.borrows ++
        [{ id := s.nextBorrowId, userId := u, bookId := bid, borrowDate := n,
           dueDate := d, returnDate := none, status := BorrowStatus.borrowed,
           createdAt := n }]) s.nextBorrowId =
      some { id := s.nextBorrowId, userId := u, bookId := bid, borrowDate := n,
             dueDate := d, returnDate := none, status := BorrowStatus.borrowed,
             createdAt := n } :=
    findBorrow_append_fresh hfresh
  have hbook1 : findBook (saveBook s.books { book with copies := book.copies - 1 })
      bid = some { book with copies := book.copies - 1 } :=
    findBook_saveBook_self_id (by simpa using hbookid) hfind
  have heq2 : returnBook
      { books := saveBook s.books { book with copies := book.copies - 1 },
        borrows := s.borrows ++
          [{ id := s.nextBorrowId, userId := u, bookId := bid, borrowDate := n,
             dueDate := d, returnDate := none, status := BorrowStatus.borrowed,
             createdAt := n }],
        nextBorrowId := s.nextBorrowId + 1 } s.nextBorrowId u2 n2 = .ok
      ({ books := saveBook (saveBook s.books { book with copies := book.copies - 1 })
           { book with copies := book.copies - 1 + 1 },
         borrows := updateBorrow
           (s.borrows ++
             [{ id := s.nextBorrowId, userId := u, bookId := bid, borrowDate := n,
                dueDate := d, returnDate := none, status := BorrowStatus.borrowed,
                createdAt := n }]) s.nextBorrowId BorrowStatus.returned (some n2),
         nextBorrowId := s.nextBorrowId + 1 },
       { id := s.nextBorrowId, userId := u, bookId := bid, borrowDate := n,
         dueDate := d, returnDate := some n2, status := BorrowStatus.returned,
         createdAt := n }) := by
    simp only [returnBook, hfind1, hbook1]
    simp
  have hbook2 : findBook
      (saveBook (saveBook s.books { book with copies := book.copies - 1 })
        { book with copies := book.copies - 1 + 1 }) bid =
      some { book with copies := book.copies - 1 + 1 } :=
    findBook_saveBook_self_id (by simpa using hbookid) hbook1
  refine ⟨_, _, _, _, heq1, heq2, ?_, ?_⟩
  · simp only [copiesOf, hbook2, hfind]
    show book.copies - 1 + 1 = book.copies
    omega
  · intro b2 hb2
    have hne1 : ({ book with copies := book.copies - 1 } : Book).id ≠ b2 := by
      show ¬ book.id = b2
      rw [hbookid]
      exact fun hc => hb2 hc.symm
    have hne2 : ({ book with copies := book.copies - 1 + 1 } : Book).id ≠ b2 := by
      show ¬ book.id = b2
      rw [hbookid]
      exact fun hc => hb2 hc.symm
    show findBook
      (saveBook (saveBook s.books { book with copies := book.copies - 1 })
        { book with copies := book.copies - 1 + 1 }) b2 = findBook s.books b2
    rw [findBook_saveBook_ne hne2, findBook_saveBook_ne hne1]

/-- Witness for C6: borrowing and returning `exBook1` in `exState` restores
its two copies. -/
theorem borrow_return_roundtrip_witness :
    ∃ s1 r s2 r2, borrowBook exState 7 1 9 4 = .ok (s1, r) ∧
      returnBook s1 r.id 7 11 = .ok (s2, r2) ∧
      copiesOf s2 1 = copiesOf exState 1 ∧
      (∀ b2, b2 ≠ 1 → findBook s2.books b2 = findBook exState.books b2) :=
  @borrow_return_roundtrip exState 7 1 9 4 7 11 exBook1 rfl (by decide) (by decide)

/-- C7: `bookAvailabilitySummary` reports one row per book with
totalCopies = the book's copies field, borrowedCopies = the number of
borrowed-status records for that book, availableCopies = totalCopies minus
borrowedCopies (possibly negative per book); the totals sum totalCopies,
borrowedCopies and max(0, availableCopies) over all rows, so
totals.availableBooks is never negative. -/
theorem bookAvailabilitySummary_spec (s : LibState) :
    (∀ b ∈ s.books,
      availabilityEntry s.borrows b ∈ (bookAvailabilitySummary s).1) ∧
    (∀ e ∈ (bookAvailabilitySummary s).1, ∃ b, b ∈ s.books ∧
      e.bookId = b.id ∧ e.totalCopies = b.copies ∧
      e.borrowedCopies = activeCount s.borrows b.id ∧
      e.availableCopies = e.totalCopies - (e.borrowedCopies : Int)) ∧
    (bookAvailabilitySummary s).2.totalBooks =
      ((bookAvailabilitySummary s).1.map (fun e => e.totalCopies)).sum ∧
    (bookAvailabilitySummary s).2.borrowedBooks =
      ((bookAvailabilitySummary s).1.map (fun e => e.borrowedCopies)).sum ∧
    (bookAvailabilitySummary s).2.availableBooks =
      ((bookAvailabilitySummary s).1.map (fun e => max 0 e.availableCopies)).sum ∧
    0 ≤ (bookAvailabilitySummary s).2.availableBooks := by
  have havail : (bookAvailabilitySummary s).2.availableBooks =
      ((bookAvailabilitySummary s).1.map (fun e => max 0 e.availableCopies)).sum := by
    have := availabilityFold_availableBooks
      (s.books.map (availabilityEntry s.borrows)) ⟨0, 0, 0⟩
    simpa [bookAvailabilitySummary] using this
  refine ⟨?_, ?_, ?_, ?_, havail, ?_⟩
  · intro b hb
    simp only [bookAvailabilitySummary]
    exact List.mem_map_of_mem _ hb
  · intro e he
    simp only [bookAvailabilitySummary] at he
    obtain ⟨b, hb, hbe⟩ := List.mem_map.mp he
    exact ⟨b, hb, by rw [← hbe]; rfl, by rw [← hbe]; rfl, by rw [← hbe]; rfl,
      by rw [← hbe]; rfl⟩
  · have := availabilityFold_totalBooks
      (s.books.map (availabilityEntry s.borrows)) ⟨0, 0, 0⟩
    simpa [bookAvailabilitySummary] using this
  · have := availabilityFold_borrowedBooks
      (s.books.map (availabilityEntry s.borrows)) ⟨0, 0, 0⟩
    simpa [bookAvailabilitySummary] using this
  · rw [havail]
    apply List.sum_nonneg
    intro x hx
    obtain ⟨e, -, hex⟩ := List.mem_map.mp hx
    rw [← hex]
    exact le_max_left 0 e.availableCopies

/-- Witness for C7: on one book with copies = 5 and two active borrowed
records the report shows availableCopies = 3, and the rolled-up
availableBooks total is non-negative. -/
theorem bookAvailabilitySummary_spec_witness :
    ((bookAvailabilitySummary c7State).1.map (fun e => e.availableCopies) = [3]) ∧
    ((bookAvailabilitySummary c7State).1.map (fun e => e.totalCopies) = [5]) ∧
    ((bookAvailabilitySummary c7State).1.map (fun e => e.borrowedCopies) = [2]) ∧
    availabilityEntry c7State.borrows c7Book ∈ (bookAvailabilitySummary c7State).1 ∧
    0 ≤ (bookAvailabilitySummary c7State).2.availableBooks :=
  ⟨by decide, by decide, by decide,
   (bookAvailabilitySummary_spec c7State).1 c7Book (by decide),
   (bookAvailabilitySummary_spec c7State).2.2.2.2.2⟩

/-- Counterexample to C8 as stated: in `c8TieState` books 2 and 1 are tied
with one borrow each, book 2 first in the ledger, and the report lists book 2
before book 1 — the `$sort` stage keys on borrowCount only, so equal counts
are not broken by bookId ascending. -/
theorem mostBorrowedBooks_tiebreak_counterexample :
    ((mostBorrowedBooks c8TieState 10).map (fun e => e.borrowCount) = [1, 1]) ∧
    ((mostBorrowedBooks c8TieState 10).map (fun e => e.bookId) = [2, 1]) ∧
    ¬ ((mostBorrowedBooks c8TieState 10).map (fun e => e.bookId) = [1, 2]) :=
  ⟨by decide, by decide, by decide⟩

/-- C8 (amended): `mostBorrowedBooks(topN)` groups all borrow records
regardless of status by bookId, counts occurrences, sorts descending by
count, truncates to topN and joins current book metadata; the order among
equal counts is whatever order the store yields for the groups (here: first
appearance in the ledger), not bookId ascending. -/
theorem mostBorrowedBooks_spec (s : LibState) (top : Nat) :
    (mostBorrowedBooks s top).length ≤ top ∧
    (mostBorrowedBooks s top).Pairwise
      (fun a b => b.borrowCount ≤ a.borrowCount) ∧
    (∀ e ∈ mostBorrowedBooks s top,
      e.borrowCount = s.borrows.countP (fun r => decide (r.bookId = e.bookId)) ∧
      ∃ b, findBook s.books e.bookId = some b ∧ e.title = b.title ∧
        e.author = b.author ∧ e.ISBN = b.ISBN) := by
  refine ⟨?_, ?_, ?_⟩
  · exact le_trans (List.length_filterMap_le _ _) (List.length_take_le _ _)
  · have hsorted := sorted_sortDescBy (fun kc => kc.2) (groupCounts s.borrows)
    have htake := hsorted.sublist (List.take_sublist top _)
    refine pairwise_filterMap ?_ htake
    intro a b x y hab hfa hfb
    obtain ⟨ba, -, hxa⟩ := Option.map_eq_some'.mp hfa
    obtain ⟨bb, -, hyb⟩ := Option.map_eq_some'.mp hfb
    rw [← hxa, ← hyb]
    exact hab
  · intro e he
    obtain ⟨kc, hkcTake, hfkc⟩ := List.mem_filterMap.mp he
    have hkcSorted : kc ∈ sortDescBy (fun p => p.2) (groupCounts s.borrows) := by
      simpa [sortByCountDesc] using List.mem_of_mem_take hkcTake
    have hkcGroup : kc ∈ groupCounts s.borrows :=
      (perm_sortDescBy (fun p => p.2) (groupCounts s.borrows)).mem_iff.mp hkcSorted
    obtain ⟨b, hb, hbe⟩ := Option.map_eq_some'.mp hfkc
    have hcount : kc.2 = s.borrows.countP (fun r => decide (r.bookId = kc.1)) :=
      mem_groupCounts_count hkcGroup
    have hbid : b.id = kc.1 := findBook_id hb
    constructor
    · rw [← hbe]
      show kc.2 = s.borrows.countP (fun r => decide (r.bookId = b.id))
      rw [hbid]
      exact hcount
    · refine ⟨b, ?_, ?_, ?_, ?_⟩
      · rw [← hbe]
        show findBook s.books b.id = some b
        rw [hbid]
        exact hb
      · rw [← hbe]
      · rw [← hbe]
      · rw [← hbe]

/-- Witness for C8 (amended): on a ledger with per-book counts
{1: 5, 2: 3, 3: 3, 4: 1}, the top-3 report lists book 1 first with count 5,
then the tied books 2 and 3, has length 3, and the head row's count equals
the ledger count of its book. -/
theorem mostBorrowedBooks_spec_witness :
    ((mostBorrowedBooks c8ExampleState 3).map (fun e => e.bookId) = [1, 2, 3]) ∧
    ((mostBorrowedBooks c8ExampleState 3).map (fun e => e.borrowCount) = [5, 3, 3]) ∧
    (mostBorrowedBooks c8ExampleState 3).length ≤ 3 ∧
    c8HeadEntry.borrowCount =
      c8ExampleState.borrows.countP
        (fun r => decide (r.bookId = c8HeadEntry.bookId)) :=
  ⟨by decide, by decide, (mostBorrowedBooks_spec c8ExampleState 3).1,
   ((mostBorrowedBooks_spec c8ExampleState 3).2.2 c8HeadEntry (by decide)).1⟩

theorem mem_listBorrows_matches {s : LibState} {q : BorrowQuery}
    {cu : CurrentUser} {r : BorrowRecord} (hr : r ∈ (listBorrows s q cu).1) :
    matchesFilters (borrowFilters q cu).1 (borrowFilters q cu).2.1
      (borrowFilters q cu).2.2 r = true := by
  simp only [listBorrows] at hr
  have h1 := List.mem_of_mem_drop (List.mem_of_mem_take hr)
  have h2 : r ∈ s.borrows.filter
      (matchesFilters (borrowFilters q cu).1 (borrowFilters q cu).2.1
        (borrowFilters q cu).2.2) := by
    have hperm := perm_sortDescBy (fun x : BorrowRecord => x.createdAt)
      (s.borrows.filter
        (matchesFilters (borrowFilters q cu).1 (borrowFilters q cu).2.1
          (borrowFilters q cu).2.2))
    exact hperm.mem_iff.mp (by simpa [sortByCreatedDesc] using h1)
  exact (List.mem_filter.mp h2).2

/-- C9: an explicit userId filter is honored; a Member caller without one
sees only their own records (and the match total counts exactly the records
passing the forced own-id filter, regardless of ledger size); an Admin
without explicit filters matches the whole ledger; the returned page is
sorted by creation time descending. -/
theorem listBorrows_spec (s : LibState) (q : BorrowQuery) (cu : CurrentUser) :
    (∀ uid, q.userId = some uid →
      ∀ r ∈ (listBorrows s q cu).1, r.userId = uid) ∧
    (q.userId = none → cu.role = Role.Member →
      (∀ r ∈ (listBorrows s q cu).1, r.userId = cu.id) ∧
      (listBorrows s q cu).2 =
        (s.borrows.filter
          (matchesFilters (some cu.id) q.bookId q.status)).length) ∧
    (q.userId = none → cu.role = Role.Admin → q.bookId = none →
      q.status = none → (listBorrows s q cu).2 = s.borrows.length) ∧
    (listBorrows s q cu).1.Pairwise (fun a b => b.createdAt ≤ a.createdAt) := by
  refine ⟨?_, ?_, ?_, ?_⟩
  · intro uid huid r hr
    have hm := mem_listBorrows_matches hr
    have hfl : (borrowFilters q cu).1 = some uid := by
      simp [borrowFilters, huid]
    rw [hfl] at hm
    simp only [matchesFilters, Bool.and_eq_true] at hm
    exact by simpa using hm.1.1
  · intro hnone hrole
    have hfl : borrowFilters q cu = (some cu.id, q.bookId, q.status) := by
      simp [borrowFilters, hnone, hrole]
    constructor
    · intro r hr
      have hm := mem_listBorrows_matches hr
      rw [hfl] at hm
      simp only [matchesFilters, Bool.and_eq_true] at hm
      exact by simpa using hm.1.1
    · simp only [listBorrows]
      rw [hfl]
  · intro hnone hrole hbid hstatus
    have hfl : borrowFilters q cu = (none, none, none) := by
      simp [borrowFilters, hnone, hrole, hbid, hstatus]
    simp only [listBorrows]
    rw [hfl]
    show (s.borrows.filter (fun _ => true)).length = s.borrows.length
    rw [List.filter_true]
  · simp only [listBorrows]
    exact (sorted_sortDescBy (fun x : BorrowRecord => x.createdAt) _).sublist
      ((List.take_sublist _ _).trans (List.drop_sublist _ _))

/-- Witness for C9: the Member with id 7 calling `listBorrows` on `c9State`
with no explicit filter sees exactly their own record. -/
theorem listBorrows_spec_witness :
    ((listBorrows c9State c9Query c9Member).1.map (fun r => r.userId) = [7]) ∧
    (listBorrows c9State c9Query c9Member).2 =
      (c9State.borrows.filter
        (matchesFilters (some c9Member.id) c9Query.bookId c9Query.status)).length ∧
    c9RecA.userId = c9Member.id :=
  ⟨by decide,
   ((listBorrows_spec c9State c9Query c9Member).2.1 rfl rfl).2,
   ((listBorrows_spec c9State c9Query c9Member).2.1 rfl rfl).1 c9RecA (by decide)⟩

end Nalanda
